import Mathlib

/-!
Verification development for the `booster` WebSocket session broker.

The Go sources are embedded shallowly:
* `hub.go` — the per-application `Hub`: registry `map[string][]*Session`,
  single event loop (`Hub.Run`) serving register/unregister/broadcast/exit.
* `booster.go` — the broker: `map[string]*Hub`, lazy hub creation
  (`getHub`), `PushMessage`.
* the session file — `Session`: non-blocking enqueue (`writeMessage`),
  transport writes (`writeRaw`), the write pump (`writePump`), the
  key-value store (`Set`/`Get`/`MustGet`/typed getters).

Go maps are embedded as association lists with distinct keys, channels with
capacity as bounded queues, and pointer identity of `*Session` as an `id`
field (distinct allocations carry distinct ids).
-/

namespace Booster

/-- Message-type code of text frames (`websocket.TextMessage = 1`). -/
def TextMessage : Nat := 1

/-- Message-type code of binary frames (`websocket.BinaryMessage = 2`). -/
def BinaryMessage : Nat := 2

/-- Message-type code of close frames (`websocket.CloseMessage = 8`). -/
def CloseMessage : Nat := 8

/-- Message-type code of ping frames (`websocket.PingMessage = 9`). -/
def PingMessage : Nat := 9

/-- One live peer connection, as the Hub sees it: its identity and its
routing identifiers.  `id` stands for the Go pointer `*Session`: two
distinct allocations have distinct `id`s, so Go pointer equality
(`s1 == s`) is equality of this structure.  The outbound queue and the
key-value store are modelled separately where a claim needs them. -/
structure Session where
  id : Nat
  userId : String
  appId : String
deriving DecidableEq, Repr

/-- The `envelope` message unit.  Its struct declaration is not among the
given sources; the fields are exactly those used by the composite literals
in `booster.go`, `hub.go` and the session file: `t` (message-type code),
`msg` (payload bytes), `userIds` (target users), `filter`. -/
structure envelope where
  t : Nat
  msg : List Nat
  userIds : List String
  filter : Option (Session → Bool)

/-- Read access `m[k]` of a Go map embedded as an association list. -/
def mapGet {α : Type} : List (String × α) → String → Option α
  | [], _ => none
  | p :: rest, k => if p.1 = k then some p.2 else mapGet rest k

/-- Write access `m[k] = v` of a Go map: replace the binding if the key is
present, append a fresh binding otherwise. -/
def mapSet {α : Type} : List (String × α) → String → α → List (String × α)
  | [], k, v => [(k, v)]
  | p :: rest, k, v => if p.1 = k then (k, v) :: rest else p :: mapSet rest k v

/-- Deletion `delete(m, k)` of a Go map key. -/
def mapDelete {α : Type} : List (String × α) → String → List (String × α)
  | [], _ => []
  | p :: rest, k => if p.1 = k then rest else p :: mapDelete rest k

/-- Bounded Go channel of envelopes (`chan *envelope` with capacity
`cap`).  `buf` holds the buffered items in order; `closed` records
whether `close` has been called on the channel. -/
structure BQueue where
  cap : Nat
  buf : List envelope
  closed : Bool

/-- Outcome of a channel send as one step of the sender. -/
inductive SendOutcome where
  /-- The send finished: the queue is now `q`, and each envelope in
  `dropped` was abandoned with one error-callback invocation naming it. -/
  | completed (q : BQueue) (dropped : List envelope)
  /-- The send cannot finish now: the sending goroutine is blocked. -/
  | blocked
  /-- The send hit a closed channel and the goroutine panics. -/
  | panicked

/-- Appending an envelope to a queue's buffer. -/
def BQueue.enq (q : BQueue) (e : envelope) : BQueue :=
  { q with buf := q.buf ++ [e] }

/-- Session.writeMessage: the non-blocking enqueue
`select { case s.output <- message: default: errorHandler(...) }`,
wrapped in a `recover` that swallows the panic of sending on a closed
channel.  Result: the new queue, plus the list of envelopes handed to the
error callback (`fmt.Errorf("write channel full, abandon message[%v]",
message)` — at most one, naming the dropped message).  It always returns
at once: the caller is never blocked. -/
def writeMessage (q : BQueue) (e : envelope) : BQueue × List envelope :=
  if q.closed then (q, [])
  else if q.buf.length < q.cap then (q.enq e, [])
  else (q, [e])

/-- Session.Write: `writeMessage(&envelope{t: websocket.TextMessage, msg: msg})`. -/
def Session.Write (q : BQueue) (msg : List Nat) : BQueue × List envelope :=
  writeMessage q { t := TextMessage, msg := msg, userIds := [], filter := none }

/-- Session.WriteBinary: `writeMessage(&envelope{t: websocket.BinaryMessage, msg: msg})`. -/
def Session.WriteBinary (q : BQueue) (msg : List Nat) : BQueue × List envelope :=
  writeMessage q { t := BinaryMessage, msg := msg, userIds := [], filter := none }

/-- Session.Close: `writeMessage(&envelope{t: websocket.CloseMessage, msg: []byte{}})`. -/
def Session.Close (q : BQueue) : BQueue × List envelope :=
  writeMessage q { t := CloseMessage, msg := [], userIds := [], filter := none }

/-- Hub.Run's forward of a broadcast envelope to one target session:
the bare blocking channel send `s.output <- e`.  It completes only when
the queue has room; on a full queue the sender blocks, and on a closed
channel it panics (no `recover` on this path). -/
def hubForward (q : BQueue) (e : envelope) : SendOutcome :=
  if q.closed then .panicked
  else if q.buf.length < q.cap then .completed (q.enq e) []
  else .blocked

/-- Modelled from the spec: how §4.2 *says* the Hub forwards — "the
non-blocking enqueue described in §4.1 semantics — a full queue drops
silently from the Hub's perspective (the per-session error callback still
fires)", i.e. `writeMessage` semantics, as a `SendOutcome` for comparison
with `hubForward`. -/
def hubForwardSpec (q : BQueue) (e : envelope) : SendOutcome :=
  .completed (writeMessage q e).1 (writeMessage q e).2

/-- Per-application Hub state: the `closed` flag (`uint32`, 0 = open) and
the registry `sessions map[string][]*Session`. -/
structure Hub where
  closed : Bool
  sessions : List (String × List Session)

/-- NewHub(): open hub with an empty registry. -/
def NewHub : Hub :=
  { closed := false, sessions := [] }

/-- Hub.Closed(): `atomic.LoadUint32(&h.closed) == 1`. -/
def Hub.Closed (h : Hub) : Bool :=
  h.closed

/-- Whether the broadcast case of `Hub.Run` forwards envelope `e` to
session `s`: `e.filter != nil && !e.filter(s)` skips `s`. -/
def filterAccepts (e : envelope) (s : Session) : Bool :=
  match e.filter with
  | none => true
  | some f => f s

/-- Registry mutation of the `register` case of `Hub.Run`: create the slot
`sessions[s.userId]` when absent, then append `s` to it. -/
def registerSession (m : List (String × List Session)) (s : Session) :
    List (String × List Session) :=
  mapSet m s.userId ((mapGet m s.userId).getD [] ++ [s])

/-- Registry mutation of the `unregister` case of `Hub.Run`: when the
slot exists, remove the first entry that is the same instance (Go pointer
equality `s1 == s`); a missing slot or a missing instance changes
nothing. -/
def unregisterSession (m : List (String × List Session)) (s : Session) :
    List (String × List Session) :=
  match mapGet m s.userId with
  | none => m
  | some ss => mapSet m s.userId (ss.erase s)

/-- Recipients of the broadcast case of `Hub.Run`, in forwarding order:
with a non-empty `e.userIds`, each listed user's slot (unknown users are
skipped via the `ok` test) filtered by `e.filter`; with an empty
`e.userIds`, every slot filtered by `e.filter`.  `Hub.Run` performs
`s.output <- e` on exactly these sessions, in this order. -/
def broadcastTargets (m : List (String × List Session)) (e : envelope) :
    List Session :=
  if 0 < e.userIds.length then
    e.userIds.flatMap (fun uid =>
      match mapGet m uid with
      | none => []
      | some ss => ss.filter (fun s => filterAccepts e s))
  else
    m.flatMap (fun p => p.2.filter (fun s => filterAccepts e s))

/-- Events served by the `select` of `Hub.Run`, except `exit` (modelled
separately as `hubExitTrace`/`hubExitState`). -/
inductive HubEvent where
  | register (s : Session)
  | unregister (s : Session)
  | broadcast (e : envelope)

/-- One iteration of `Hub.Run` on a non-exit event: the new hub state plus
the sessions the envelope was forwarded to (always `[]` for
register/unregister).  Each case is ignored (`break` of the `select` arm)
when `h.Closed()`. -/
def hubStep (h : Hub) (ev : HubEvent) : Hub × List Session :=
  match ev with
  | .register s =>
    if h.Closed then (h, [])
    else ({ h with sessions := registerSession h.sessions s }, [])
  | .unregister s =>
    if h.Closed then (h, [])
    else ({ h with sessions := unregisterSession h.sessions s }, [])
  | .broadcast e =>
    if h.Closed then (h, [])
    else (h, broadcastTargets h.sessions e)

/-- Hub event loop over a list of events, threading the state. -/
def processEvents (h : Hub) (evs : List HubEvent) : Hub :=
  evs.foldl (fun h ev => (hubStep h ev).1) h

/-- Registry well-formedness, maintained by `Hub.Run`: the key list is
that of a Go map (no duplicate keys), and every session sits in the slot
of its own `userId` (registration files a session under `s.userId`). -/
def WFRegistry (m : List (String × List Session)) : Prop :=
  (m.map Prod.fst).Nodup ∧ ∀ p ∈ m, ∀ s ∈ p.2, s.userId = p.1

/-- Session `s` is present in registry `m` (under its own user id). -/
def registeredIn (m : List (String × List Session)) (s : Session) : Prop :=
  ∃ ss, mapGet m s.userId = some ss ∧ s ∈ ss

instance (m : List (String × List Session)) (s : Session) :
    Decidable (registeredIn m s) := by
  unfold registeredIn
  cases mapGet m s.userId with
  | none => exact .isFalse (by simp)
  | some ss => exact decidable_of_iff (s ∈ ss) (by simp)

/-- Effects of one `Session.writeRaw` call: the message-type codes of the
frames written to the transport, whether `conn.Close()` was performed,
and the returned error. -/
structure RawResult where
  frames : List Nat
  connClosed : Bool
  err : Option String

/-- Session.writeRaw: set the write deadline, `conn.WriteMessage(t, msg)`
(error returned at once), and after a successful close-message write also
`conn.Close()` (its error returned).  The transport's outcomes are the
parameters `wErr` (for WriteMessage) and `cErr` (for Close). -/
def writeRaw (m : envelope) (wErr cErr : Option String) : RawResult :=
  match wErr with
  | some e => { frames := [], connClosed := false, err := some e }
  | none =>
    if m.t = CloseMessage then
      { frames := [m.t], connClosed := true, err := cErr }
    else
      { frames := [m.t], connClosed := false, err := none }

/-- Envelope built by `Session.close` and `Hub.Run`'s exit path:
`&envelope{t: websocket.CloseMessage, msg: []byte{}}`. -/
def closeEnvelope : envelope :=
  { t := CloseMessage, msg := [], userIds := [], filter := none }

/-- Envelope built by `Session.ping`:
`&envelope{t: websocket.PingMessage, msg: []byte{}}`. -/
def pingEnvelope : envelope :=
  { t := PingMessage, msg := [], userIds := [], filter := none }

/-- Event waking the `select` of one `Session.writePump` iteration. -/
inductive WPEvent where
  /-- `msg, ok := <-s.output` with `ok = true`: a dequeued envelope. -/
  | recv (m : envelope)
  /-- `msg, ok := <-s.output` with `ok = false`: the queue was closed. -/
  | queueClosed
  /-- `<-ticker.C`: the keepalive ticker fired. -/
  | tick

/-- Observable outcome of one `Session.writePump` iteration. -/
structure WPStep where
  frames : List Nat
  reported : List String
  terminated : Bool
  connClosed : Bool

/-- One iteration of the `Session.writePump` loop, from the source:
a closed queue runs `s.close()` (error discarded) and leaves the loop; a
dequeued envelope runs `writeRaw` and, only on error, reports it once via
the error callback and leaves the loop — on success the loop continues,
even for a close envelope; a ticker fire runs `s.ping()`, whose `writeRaw`
error is discarded, and the loop continues. -/
def writePumpStep (ev : WPEvent) (wErr cErr : Option String) : WPStep :=
  match ev with
  | .queueClosed =>
    { frames := (writeRaw closeEnvelope wErr cErr).frames, reported := [],
      terminated := true, connClosed := (writeRaw closeEnvelope wErr cErr).connClosed }
  | .recv m =>
    match (writeRaw m wErr cErr).err with
    | some e =>
      { frames := (writeRaw m wErr cErr).frames, reported := [e],
        terminated := true, connClosed := (writeRaw m wErr cErr).connClosed }
    | none =>
      { frames := (writeRaw m wErr cErr).frames, reported := [],
        terminated := false, connClosed := (writeRaw m wErr cErr).connClosed }
  | .tick =>
    { frames := (writeRaw pingEnvelope wErr cErr).frames, reported := [],
      terminated := false, connClosed := (writeRaw pingEnvelope wErr cErr).connClosed }

/-- Step of the exit case of `Hub.Run`, in execution order. -/
inductive ExitEv where
  /-- `atomic.StoreUint32(&h.closed, 1)`. -/
  | markClosing
  /-- `s.Close()`: enqueue a close envelope to `s` through the
  non-blocking `writeMessage` path. -/
  | sendClose (s : Session)
  /-- `close(s.output)`. -/
  | closeQueue (s : Session)
  /-- `<-s.exited`: block until `s`'s write pump has signalled exit. -/
  | waitExited (s : Session)
  /-- `delete(h.sessions, key)` after every session of `key` exited. -/
  | deleteKey (k : String)
  /-- `h.exited <- true` after `break LOOP`: `Hub.Close()` unblocks. -/
  | signalExited
deriving DecidableEq

/-- Exit steps `Hub.Run` performs for one registered session, in order. -/
def sessionExitEvs (s : Session) : List ExitEv :=
  [.sendClose s, .closeQueue s, .waitExited s]

/-- Trace of the `for key, ss := range h.sessions` loop of the exit case:
for each registry entry, each of its sessions is closed, its queue closed
and its exit awaited, then the entry's key is deleted. -/
def exitLoopTrace : List (String × List Session) → List ExitEv
  | [] => []
  | p :: rest => p.2.flatMap sessionExitEvs ++ ExitEv.deleteKey p.1 :: exitLoopTrace rest

/-- Full trace of the exit case of `Hub.Run`: mark closed, drain every
registry entry, then (after `break LOOP`) signal `h.exited`. -/
def hubExitTrace (h : Hub) : List ExitEv :=
  ExitEv.markClosing :: (exitLoopTrace h.sessions ++ [ExitEv.signalExited])

/-- Hub state after the exit case of `Hub.Run`: the flag is set and every
key the loop visited has been deleted from the registry. -/
def hubExitState (h : Hub) : Hub :=
  { closed := true,
    sessions := h.sessions.foldl (fun acc p => mapDelete acc p.1) h.sessions }

/-- Registry operation projected onto a single user's slot. -/
inductive SOp where
  | reg (s : Session)
  | unreg (s : Session)
deriving DecidableEq

/-- Sessions a list of slot operations registers, in order. -/
def regsOf : List SOp → List Session
  | [] => []
  | .reg s :: r => s :: regsOf r
  | .unreg _ :: r => regsOf r

/-- Sessions a list of slot operations unregisters, in order. -/
def unregsOf : List SOp → List Session
  | [] => []
  | .reg _ :: r => unregsOf r
  | .unreg s :: r => s :: unregsOf r

/-- Well-ordering of a slot-operation list: no session is registered
after an unregistration of it (an unregister always refers to an earlier
register, as in `HandleWs`, which unregisters a session only after having
registered it). -/
def noLateReg : List SOp → Bool
  | [] => true
  | .reg _ :: r => noLateReg r
  | .unreg s :: r => decide (s ∉ regsOf r) && noLateReg r

/-- Evolution of one slot's session list under slot operations, as
`Hub.Run` performs it: register appends, unregister erases the first
identity match. -/
def applySOps : List Session → List SOp → List Session
  | l, [] => l
  | l, .reg s :: r => applySOps (l ++ [s]) r
  | l, .unreg s :: r => applySOps (l.erase s) r

/-- Contents of a slot: the session list when the slot exists, empty
otherwise. -/
def slotSessions (o : Option (List Session)) : List Session :=
  o.getD []

/-- One slot operation on an optional slot, as the register/unregister
cases of `Hub.Run` act on `h.sessions[userId]`: register creates the slot
when absent and appends; unregister leaves an absent slot absent and
erases the first identity match otherwise. -/
def applyOp (o : Option (List Session)) : SOp → Option (List Session)
  | .reg s => some (o.getD [] ++ [s])
  | .unreg s =>
    match o with
    | none => none
    | some ss => some (ss.erase s)

/-- Slot operation (if any) event `ev` induces on user `u`'s slot. -/
def evSOp (u : String) : HubEvent → Option SOp
  | .register s => if s.userId = u then some (.reg s) else none
  | .unregister s => if s.userId = u then some (.unreg s) else none
  | .broadcast _ => none

/-- Slot operations a hub event list induces on user `u`'s slot. -/
def opsFor (u : String) (evs : List HubEvent) : List SOp :=
  evs.filterMap (evSOp u)

/-- Dynamically-typed value held by the session key-value store
(`map[string]interface{}`).  Distinct constructors model distinct Go
dynamic types, so the type assertions `val.(string)`, `val.(int)` and
`val.(int64)` succeed exactly on the matching constructor; `vother`
stands for a value of any other type. -/
inductive GoValue where
  | vstring (s : String)
  | vint (n : Int)
  | vint64 (n : Int)
  | vother
deriving DecidableEq

/-- Session.Get: the mutex-guarded read `s.keys[key]`; `none` models the
`nil` interface a missing key yields. -/
def Session.Get (keys : List (String × GoValue)) (k : String) : Option GoValue :=
  mapGet keys k

/-- Session.MustGet: `Get`, then when the value is `nil` the call
`panic("Session MustGet:" + key + " fail")` — the panic is modelled as
`Except.error` carrying the panic message. -/
def Session.MustGet (keys : List (String × GoValue)) (k : String) :
    Except String GoValue :=
  match Session.Get keys k with
  | none => .error ("Session MustGet:" ++ k ++ " fail")
  | some v => .ok v

/-- Session.GetString: the stored string when the key holds one, `""` on
absence or on a failed `val.(string)` assertion. -/
def Session.GetString (keys : List (String × GoValue)) (k : String) : String :=
  match Session.Get keys k with
  | some (.vstring v) => v
  | _ => ""

/-- Session.GetInt: the stored `int` when the key holds one, `0` on
absence or on a failed `val.(int)` assertion. -/
def Session.GetInt (keys : List (String × GoValue)) (k : String) : Int :=
  match Session.Get keys k with
  | some (.vint v) => v
  | _ => 0

/-- Session.GetInt64: the stored `int64` when the key holds one, `0` on
absence or on a failed `val.(int64)` assertion. -/
def Session.GetInt64 (keys : List (String × GoValue)) (k : String) : Int :=
  match Session.Get keys k with
  | some (.vint64 v) => v
  | _ => 0

/-- Broker state used by `PushMessage`: the `hubs map[string]*Hub` of the
`Booster`.  (`getHub` and `PushMessage` never mutate an existing hub, so
holding hubs by value is faithful here.) -/
structure BoosterState where
  hubs : List (String × Hub)

/-- Booster.getHub: return the hub filed under `appId`; when absent,
create a fresh `NewHub()`, start its event loop (`go h.Run()` — the new
hub is open), file it under `appId`, and return it. -/
def getHub (b : BoosterState) (appId : String) : BoosterState × Hub :=
  match mapGet b.hubs appId with
  | some h => (b, h)
  | none => ({ hubs := mapSet b.hubs appId NewHub }, NewHub)

/-- Booster.PushMessage: resolve the hub via `getHub` (creating it when
absent); when it is closed, fail with the
`"appId[%v] hub has closed"` error and submit nothing; otherwise build
the text envelope `&envelope{t: websocket.TextMessage, userIds: userIds,
msg: msg, filter: fn}`, submit it on the hub's broadcast channel
(returned in `Except.ok`), and succeed. -/
def PushMessage (b : BoosterState) (appId : String) (userIds : List String)
    (msg : List Nat) (fn : Option (Session → Bool)) :
    BoosterState × Except String envelope :=
  match getHub b appId with
  | (b2, h) =>
    if h.Closed then
      (b2, .error ("appId[" ++ appId ++ "] hub has closed"))
    else
      (b2, .ok { t := TextMessage, msg := msg, userIds := userIds, filter := fn })

theorem mapGet_eq_some_mem {α : Type} {m : List (String × α)} {k : String} {v : α}
    (h : mapGet m k = some v) : (k, v) ∈ m := by
  induction m with
  | nil => simp [mapGet] at h
  | cons p rest ih =>
    by_cases hk : p.1 = k
    · simp only [mapGet, if_pos hk] at h
      have hv : p.2 = v := Option.some.inj h
      have hp : p = (k, v) := by
        cases p
        simp_all
      rw [← hp]
      exact List.mem_cons_self _ _
    · simp only [mapGet, if_neg hk] at h
      exact List.mem_cons_of_mem _ (ih h)

theorem mem_mapGet {α : Type} {m : List (String × α)}
    (hnd : (m.map Prod.fst).Nodup) {k : String} {v : α}
    (h : (k, v) ∈ m) : mapGet m k = some v := by
  induction m with
  | nil => cases h
  | cons p rest ih =>
    simp only [List.map_cons, List.nodup_cons] at hnd
    rcases List.mem_cons.mp h with h1 | h1
    · subst h1
      simp [mapGet]
    · by_cases hk : p.1 = k
      · exfalso
        exact hnd.1 (hk ▸ (List.mem_map.mpr ⟨(k, v), h1, rfl⟩))
      · simp only [mapGet, if_neg hk]
        exact ih hnd.2 h1

theorem mapGet_mapSet_self {α : Type} (m : List (String × α)) (k : String) (v : α) :
    mapGet (mapSet m k v) k = some v := by
  induction m with
  | nil => simp [mapSet, mapGet]
  | cons p rest ih =>
    by_cases hk : p.1 = k
    · simp [mapSet, hk, mapGet]
    · simp [mapSet, hk, mapGet, ih]

theorem mapGet_mapSet_ne {α : Type} (m : List (String × α)) {k k' : String} (v : α)
    (h : k' ≠ k) : mapGet (mapSet m k v) k' = mapGet m k' := by
  induction m with
  | nil =>
    simp [mapSet, mapGet]
    intro he
    exact absurd he.symm h
  | cons p rest ih =>
    by_cases hk : p.1 = k
    · have hkk' : ¬(k = k') := fun he => h he.symm
      have hpk' : ¬(p.1 = k') := hk ▸ hkk'
      simp only [mapSet, if_pos hk, mapGet, if_neg hkk', if_neg hpk']
    · simp only [mapSet, if_neg hk, mapGet]
      by_cases hk' : p.1 = k'
      · simp [hk']
      · simp [hk', ih]

theorem mem_broadcastTargets_targeted {m : List (String × List Session)}
    (hwf : WFRegistry m) {e : envelope} (hne : e.userIds ≠ []) (s : Session) :
    s ∈ broadcastTargets m e ↔
      s.userId ∈ e.userIds ∧ registeredIn m s ∧ filterAccepts e s = true := by
  unfold broadcastTargets
  rw [if_pos (List.length_pos.mpr hne)]
  simp only [List.mem_flatMap]
  constructor
  · rintro ⟨uid, huid, hmem⟩
    rcases hget : mapGet m uid with _ | ss
    · rw [hget] at hmem
      simp at hmem
    · rw [hget] at hmem
      have hf := List.mem_filter.mp hmem
      have hkv := mapGet_eq_some_mem hget
      have huser : s.userId = uid := hwf.2 (uid, ss) hkv s hf.1
      refine ⟨huser ▸ huid, ⟨ss, ?_, hf.1⟩, hf.2⟩
      rw [huser]
      exact hget
  · rintro ⟨huid, ⟨ss, hget, hmem⟩, hacc⟩
    refine ⟨s.userId, huid, ?_⟩
    rw [hget]
    exact List.mem_filter.mpr ⟨hmem, hacc⟩

theorem mem_broadcastTargets_all {m : List (String × List Session)}
    (hwf : WFRegistry m) {e : envelope} (hemp : e.userIds = []) (s : Session) :
    s ∈ broadcastTargets m e ↔ registeredIn m s ∧ filterAccepts e s = true := by
  unfold broadcastTargets
  rw [if_neg (by simp [hemp])]
  simp only [List.mem_flatMap]
  constructor
  · rintro ⟨p, hp, hmem⟩
    have hf := List.mem_filter.mp hmem
    have huser : s.userId = p.1 := hwf.2 p hp s hf.1
    refine ⟨⟨p.2, ?_, hf.1⟩, hf.2⟩
    rw [huser]
    exact mem_mapGet hwf.1 (by simpa using hp)
  · rintro ⟨⟨ss, hget, hmem⟩, hacc⟩
    exact ⟨(s.userId, ss), mapGet_eq_some_mem hget,
      List.mem_filter.mpr ⟨hmem, hacc⟩⟩

/-- C1: while the hub is open, the broadcast case of `Hub.Run` forwards
the envelope exactly to: the sessions registered under the listed user
ids that the filter accepts when `targetUsers` is non-empty (unknown
user ids contribute nothing, no other user's session is forwarded to),
and every registered session the filter accepts when `targetUsers` is
empty.  With no filter, `filterAccepts` is constantly `true`, so "all of
them" are accepted. -/
theorem hub_broadcast_delivery_exact (h : Hub) (e : envelope)
    (hopen : h.closed = false) (hwf : WFRegistry h.sessions) :
    (hubStep h (.broadcast e)).2 = broadcastTargets h.sessions e ∧
    (e.userIds ≠ [] → ∀ s, s ∈ broadcastTargets h.sessions e ↔
      s.userId ∈ e.userIds ∧ registeredIn h.sessions s ∧ filterAccepts e s = true) ∧
    (e.userIds = [] → ∀ s, s ∈ broadcastTargets h.sessions e ↔
      registeredIn h.sessions s ∧ filterAccepts e s = true) ∧
    (e.filter = none → ∀ s, filterAccepts e s = true) := by
  refine ⟨by simp [hubStep, Hub.Closed, hopen], ?_, ?_, ?_⟩
  · intro hne s
    exact mem_broadcastTargets_targeted hwf hne s
  · intro hemp s
    exact mem_broadcastTargets_all hwf hemp s
  · intro hnone s
    simp [filterAccepts, hnone]

/-- Witness for C1 at a concrete registry: users "a" (two sessions) and
"b" (one session), a broadcast targeted at "a" with a filter rejecting
session id 2 — session ⟨1, "a", "app"⟩ is forwarded to, session
⟨3, "b", "app"⟩ is not. -/
theorem hub_broadcast_delivery_exact_witness :
    (⟨1, "a", "app"⟩ : Session) ∈
      broadcastTargets [("a", [⟨1, "a", "app"⟩, ⟨2, "a", "app"⟩]), ("b", [⟨3, "b", "app"⟩])]
        { t := 1, msg := [], userIds := ["a"], filter := some (fun s => s.id ≠ 2) } ∧
    (⟨3, "b", "app"⟩ : Session) ∉
      broadcastTargets [("a", [⟨1, "a", "app"⟩, ⟨2, "a", "app"⟩]), ("b", [⟨3, "b", "app"⟩])]
        { t := 1, msg := [], userIds := ["a"], filter := some (fun s => s.id ≠ 2) } := by
  have h := hub_broadcast_delivery_exact
    { closed := false,
      sessions := [("a", [⟨1, "a", "app"⟩, ⟨2, "a", "app"⟩]), ("b", [⟨3, "b", "app"⟩])] }
    { t := 1, msg := [], userIds := ["a"], filter := some (fun s => s.id ≠ 2) }
    rfl (by refine ⟨by decide, ?_⟩; decide)
  constructor
  · exact (h.2.1 (by decide) _).mpr ⟨by decide, by decide, by decide⟩
  · intro hmem
    have := (h.2.1 (by decide) _).mp hmem
    have hb : ("b" : String) ∈ ["a"] := this.1
    simp at hb

/-- C2 counterexample: on a full (capacity 1, one buffered envelope) open
queue, `Hub.Run`'s forward `s.output <- e` blocks the event loop
(`SendOutcome.blocked`), while the behaviour the claim describes —
`writeMessage` semantics, `hubForwardSpec` — completes at once, dropping
the envelope with one error-callback invocation.  The two differ. -/
theorem hub_forward_blocks_counterexample :
    hubForward
        { cap := 1,
          buf := [{ t := 1, msg := [9], userIds := [], filter := none }],
          closed := false }
        { t := 1, msg := [5], userIds := [], filter := none } =
      SendOutcome.blocked ∧
    hubForwardSpec
        { cap := 1,
          buf := [{ t := 1, msg := [9], userIds := [], filter := none }],
          closed := false }
        { t := 1, msg := [5], userIds := [], filter := none } =
      SendOutcome.completed
        { cap := 1,
          buf := [{ t := 1, msg := [9], userIds := [], filter := none }],
          closed := false }
        [{ t := 1, msg := [5], userIds := [], filter := none }] ∧
    hubForward
        { cap := 1,
          buf := [{ t := 1, msg := [9], userIds := [], filter := none }],
          closed := false }
        { t := 1, msg := [5], userIds := [], filter := none } ≠
      hubForwardSpec
        { cap := 1,
          buf := [{ t := 1, msg := [9], userIds := [], filter := none }],
          closed := false }
        { t := 1, msg := [5], userIds := [], filter := none } := by
  refine ⟨rfl, rfl, fun hc => ?_⟩
  exact SendOutcome.noConfusion hc

/-- C2 amended: when `Hub.Run` forwards a broadcast envelope to a target
session's outbound queue, the forward is the blocking channel send
`s.output <- e`: with room in the queue the envelope is enqueued and
nothing is dropped, and with a full queue the event loop blocks until the
write pump drains the queue — the envelope is not dropped and no error
callback fires on this path. -/
theorem hub_forward_is_blocking_send (q : BQueue) (e : envelope)
    (hq : q.closed = false) :
    (q.buf.length < q.cap → hubForward q e = .completed (q.enq e) []) ∧
    (q.cap ≤ q.buf.length → hubForward q e = .blocked) := by
  constructor
  · intro hlt
    simp [hubForward, hq, hlt]
  · intro hfull
    simp [hubForward, hq, Nat.not_lt.mpr hfull]

/-- Witness for the amended C2 at a capacity-1 queue: empty means the
forward completes with no drop, full means the forward blocks. -/
theorem hub_forward_is_blocking_send_witness :
    hubForward { cap := 1, buf := [], closed := false }
        { t := 1, msg := [5], userIds := [], filter := none } =
      SendOutcome.completed
        { cap := 1,
          buf := [{ t := 1, msg := [5], userIds := [], filter := none }],
          closed := false } [] ∧
    hubForward
        { cap := 1,
          buf := [{ t := 1, msg := [9], userIds := [], filter := none }],
          closed := false }
        { t := 1, msg := [5], userIds := [], filter := none } =
      SendOutcome.blocked := by
  constructor
  · exact (hub_forward_is_blocking_send _ _ rfl).1 (by decide)
  · exact (hub_forward_is_blocking_send _ _ rfl).2 (by decide)

/-- C3: `Session.Write`/`Session.WriteBinary` go through the non-blocking
`writeMessage` (a total one-step function: the caller is never blocked).
On a full live queue the queue is left unchanged and the error callback
fires exactly once, its `"write channel full, abandon message[%v]"` error
naming exactly the dropped envelope; on a non-full queue the envelope is
appended and no callback fires. -/
theorem session_write_nonblocking (q : BQueue) (msg : List Nat)
    (hq : q.closed = false) :
    (q.cap ≤ q.buf.length →
      Session.Write q msg =
        (q, [{ t := TextMessage, msg := msg, userIds := [], filter := none }]) ∧
      Session.WriteBinary q msg =
        (q, [{ t := BinaryMessage, msg := msg, userIds := [], filter := none }])) ∧
    (q.buf.length < q.cap →
      Session.Write q msg =
        (q.enq { t := TextMessage, msg := msg, userIds := [], filter := none }, []) ∧
      Session.WriteBinary q msg =
        (q.enq { t := BinaryMessage, msg := msg, userIds := [], filter := none }, [])) := by
  constructor
  · intro hfull
    have hnlt := Nat.not_lt.mpr hfull
    exact ⟨by simp [Session.Write, writeMessage, hq, hnlt],
      by simp [Session.WriteBinary, writeMessage, hq, hnlt]⟩
  · intro hlt
    exact ⟨by simp [Session.Write, writeMessage, hq, hlt],
      by simp [Session.WriteBinary, writeMessage, hq, hlt]⟩

/-- Witness for C3: a full capacity-0 queue drops the text envelope with
one callback naming it; an empty capacity-1 queue appends it with no
callback. -/
theorem session_write_nonblocking_witness :
    Session.Write { cap := 0, buf := [], closed := false } [7] =
      ({ cap := 0, buf := [], closed := false },
        [{ t := TextMessage, msg := [7], userIds := [], filter := none }]) ∧
    Session.Write { cap := 1, buf := [], closed := false } [7] =
      ({ cap := 1,
         buf := [{ t := TextMessage, msg := [7], userIds := [], filter := none }],
         closed := false }, []) := by
  constructor
  · exact ((session_write_nonblocking _ _ rfl).1 (by decide)).1
  · exact ((session_write_nonblocking _ _ rfl).2 (by decide)).1

/-- C7 evaluated at the failing input: `Session.Close` on a non-full open
queue does enqueue the close envelope through the non-blocking path, but
when `writePump` dequeues it and both the transport write and
`conn.Close` succeed, the iteration writes the close frame and closes the
connection yet does **not** terminate the loop (`terminated = false`) —
the loop keeps running on the closed connection, with later ping errors
discarded. -/
theorem writePump_close_envelope_no_terminate :
    Session.Close { cap := 1, buf := [], closed := false } =
      ({ cap := 1, buf := [closeEnvelope], closed := false }, []) ∧
    writePumpStep (.recv closeEnvelope) none none =
      { frames := [CloseMessage], reported := [], terminated := false,
        connClosed := true } :=
  ⟨rfl, rfl⟩

/-- C8 counterexample: when the keepalive ticker fires and the transport
write of the ping frame fails (error "boom"), the iteration reports
nothing via the error callback and does not terminate the loop —
`Session.ping` discards `writeRaw`'s error. -/
theorem writePump_ping_error_silent_counterexample :
    writePumpStep .tick (some "boom") none =
      { frames := [], reported := [], terminated := false,
        connClosed := false } :=
  rfl

/-- C8 amended: a transport write error for a dequeued envelope is
reported exactly once via the error callback and terminates the write
loop; a keepalive ping write error is silently discarded — no callback,
loop continues. -/
theorem writePump_error_reporting (m : envelope) (e : String)
    (wErr cErr : Option String) :
    ((writeRaw m wErr cErr).err = some e →
      writePumpStep (.recv m) wErr cErr =
        { frames := (writeRaw m wErr cErr).frames, reported := [e],
          terminated := true, connClosed := (writeRaw m wErr cErr).connClosed }) ∧
    (writePumpStep .tick wErr cErr).reported = [] ∧
    (writePumpStep .tick wErr cErr).terminated = false := by
  refine ⟨fun h => ?_, ?_, ?_⟩
  · simp only [writePumpStep, h]
  · cases wErr <;> rfl
  · cases wErr <;> rfl

/-- Witness for the amended C8: a failed text-envelope write is reported
once ("boom") and terminates the loop; the same transport failure on a
ping tick reports nothing and the loop continues. -/
theorem writePump_error_reporting_witness :
    writePumpStep (.recv { t := 1, msg := [3], userIds := [], filter := none })
        (some "boom") none =
      { frames := [], reported := ["boom"], terminated := true,
        connClosed := false } ∧
    (writePumpStep .tick (some "boom") none).terminated = false := by
  have h := writePump_error_reporting
    { t := 1, msg := [3], userIds := [], filter := none } "boom" (some "boom") none
  exact ⟨h.1 rfl, h.2.2⟩

theorem foldl_mapDelete_keys {α : Type} :
    ∀ m : List (String × α), (m.map Prod.fst).Nodup →
      m.foldl (fun acc p => mapDelete acc p.1) m = []
  | [], _ => rfl
  | p :: rest, hnd => by
    have h1 : mapDelete (p :: rest) p.1 = rest := by
      simp [mapDelete]
    have hnd' : (rest.map Prod.fst).Nodup := by
      simp only [List.map_cons, List.nodup_cons] at hnd
      exact hnd.2
    calc (p :: rest).foldl (fun acc q => mapDelete acc q.1) (p :: rest)
        = rest.foldl (fun acc q => mapDelete acc q.1) (mapDelete (p :: rest) p.1) := rfl
      _ = rest.foldl (fun acc q => mapDelete acc q.1) rest := by rw [h1]
      _ = [] := foldl_mapDelete_keys rest hnd'

theorem signalExited_not_mem_exitLoopTrace :
    ∀ m : List (String × List Session), ExitEv.signalExited ∉ exitLoopTrace m
  | [] => by simp [exitLoopTrace]
  | p :: rest => by
    simp only [exitLoopTrace, List.mem_append, List.mem_cons, List.mem_flatMap]
    push_neg
    refine ⟨fun s _ => ?_, by simp, signalExited_not_mem_exitLoopTrace rest⟩
    simp [sessionExitEvs]

theorem sessionSeq_sublist_exitLoopTrace :
    ∀ m : List (String × List Session),
      (m.flatMap (fun p => p.2.flatMap sessionExitEvs)).Sublist (exitLoopTrace m)
  | [] => List.Sublist.refl []
  | p :: rest => by
    simp only [List.flatMap_cons, exitLoopTrace]
    exact List.Sublist.append_left
      ((sessionSeq_sublist_exitLoopTrace rest).cons _) _

theorem entryBlock_sublist_exitLoopTrace {p : String × List Session} :
    ∀ {m : List (String × List Session)}, p ∈ m →
      (p.2.flatMap sessionExitEvs ++ [ExitEv.deleteKey p.1]).Sublist (exitLoopTrace m)
  | [], h => absurd h (List.not_mem_nil p)
  | q :: rest, h => by
    rcases List.mem_cons.mp h with h1 | h1
    · subst h1
      show List.Sublist _
        (p.2.flatMap sessionExitEvs ++ ExitEv.deleteKey p.1 :: exitLoopTrace rest)
      exact List.Sublist.append_left
        ((List.nil_sublist (exitLoopTrace rest)).cons₂ _) _
    · show List.Sublist _
        (q.2.flatMap sessionExitEvs ++ ExitEv.deleteKey q.1 :: exitLoopTrace rest)
      exact (entryBlock_sublist_exitLoopTrace h1).trans
        ((List.sublist_cons_self _ _).trans
          (List.sublist_append_right _ _))

/-- C4: on an exit request `Hub.Run` first marks the hub closed (the
`closing` mark of the spec's tri-state, read by `Hub.Closed`); the exit
steps of the registered sessions occur per session in registry order —
close envelope, queue close, then the blocking wait on that session's
exited signal, all before the next session's steps (their concatenation
in registry order is a subsequence of the trace); each registry entry is
deleted only after all its sessions exited; the hub's own completion
signal — the one `Hub.Close()` blocks on — is the very last event, so it
follows every session's exit; and the final state is closed with an empty
registry. -/
theorem hub_exit_protocol (h : Hub) (hnd : (h.sessions.map Prod.fst).Nodup) :
    (hubExitTrace h).head? = some ExitEv.markClosing ∧
    (∃ tr, hubExitTrace h = tr ++ [ExitEv.signalExited] ∧
      ExitEv.signalExited ∉ tr) ∧
    (h.sessions.flatMap (fun p => p.2.flatMap sessionExitEvs)).Sublist
      (hubExitTrace h) ∧
    (∀ p ∈ h.sessions,
      (p.2.flatMap sessionExitEvs ++ [ExitEv.deleteKey p.1]).Sublist
        (hubExitTrace h)) ∧
    (hubExitState h).closed = true ∧
    (hubExitState h).sessions = [] := by
  refine ⟨rfl, ?_, ?_, ?_, rfl, ?_⟩
  · refine ⟨ExitEv.markClosing :: exitLoopTrace h.sessions, ?_, ?_⟩
    · simp [hubExitTrace]
    · simp only [List.mem_cons, not_or]
      exact ⟨by simp, signalExited_not_mem_exitLoopTrace h.sessions⟩
  · exact ((sessionSeq_sublist_exitLoopTrace h.sessions).trans
      (List.sublist_append_left _ _)).cons _
  · intro p hp
    exact ((entryBlock_sublist_exitLoopTrace hp).trans
      (List.sublist_append_left _ _)).cons _
  · exact foldl_mapDelete_keys h.sessions hnd

/-- Witness for C4 at a two-user registry: the trace opens with the
closed mark, session ⟨2, "b", "app"⟩'s close/queue-close/wait block
followed by the deletion of "b" is a subsequence of the trace, and the
final registry is empty. -/
theorem hub_exit_protocol_witness :
    (hubExitTrace
      { closed := false,
        sessions := [("a", [⟨1, "a", "app"⟩]), ("b", [⟨2, "b", "app"⟩])] }).head? =
        some ExitEv.markClosing ∧
    List.Sublist
      [ExitEv.sendClose ⟨2, "b", "app"⟩, ExitEv.closeQueue ⟨2, "b", "app"⟩,
        ExitEv.waitExited ⟨2, "b", "app"⟩, ExitEv.deleteKey "b"]
      (hubExitTrace
        { closed := false,
          sessions := [("a", [⟨1, "a", "app"⟩]), ("b", [⟨2, "b", "app"⟩])] }) ∧
    (hubExitState
      { closed := false,
        sessions := [("a", [⟨1, "a", "app"⟩]), ("b", [⟨2, "b", "app"⟩])] }).sessions =
      [] := by
  have h := hub_exit_protocol
    { closed := false,
      sessions := [("a", [⟨1, "a", "app"⟩]), ("b", [⟨2, "b", "app"⟩])] }
    (by decide)
  exact ⟨h.1, h.2.2.2.1 ("b", [⟨2, "b", "app"⟩]) (by decide), h.2.2.2.2.2⟩

theorem applySOps_eq_filter :
    ∀ (ops : List SOp) (l : List Session),
      (l ++ regsOf ops).Nodup → noLateReg ops = true →
      applySOps l ops =
        (l ++ regsOf ops).filter (fun x => decide (x ∉ unregsOf ops))
  | [], l, _, _ => by
    simp [applySOps, regsOf, unregsOf]
  | .reg s :: r, l, hnd, hlate => by
    have hnd' : ((l ++ [s]) ++ regsOf r).Nodup := by
      simpa [List.append_assoc] using hnd
    have ih := applySOps_eq_filter r (l ++ [s]) hnd' hlate
    show applySOps (l ++ [s]) r = _
    rw [ih]
    simp [regsOf, unregsOf, List.append_assoc]
  | .unreg s :: r, l, hnd, hlate => by
    simp only [noLateReg, Bool.and_eq_true, decide_eq_true_eq] at hlate
    have hndr : (l ++ regsOf r).Nodup := hnd
    have hnd' : ((l.erase s) ++ regsOf r).Nodup :=
      hndr.sublist ((l.erase_sublist s).append_right (regsOf r))
    have ih := applySOps_eq_filter r (l.erase s) hnd' hlate.2
    show applySOps (l.erase s) r = _
    rw [ih]
    have hl : l.Nodup := hndr.of_append_left
    rw [hl.erase_eq_filter s]
    simp only [regsOf, unregsOf, List.filter_append]
    congr 1
    · rw [List.filter_filter]
      apply List.filter_congr
      intro x _
      by_cases h1 : x = s <;> by_cases h2 : x ∈ unregsOf r <;>
        simp [h1, h2]
    · apply List.filter_congr
      intro x hx
      have hxs : x ≠ s := fun he => hlate.1 (he ▸ hx)
      simp [hxs, List.mem_cons]

theorem slotSessions_foldl_applyOp :
    ∀ (ops : List SOp) (o : Option (List Session)),
      slotSessions (ops.foldl applyOp o) = applySOps (slotSessions o) ops
  | [], o => rfl
  | .reg s :: r, o => by
    show slotSessions (r.foldl applyOp (applyOp o (.reg s))) = _
    rw [slotSessions_foldl_applyOp r]
    cases o <;> rfl
  | .unreg s :: r, o => by
    show slotSessions (r.foldl applyOp (applyOp o (.unreg s))) = _
    rw [slotSessions_foldl_applyOp r]
    cases o <;> rfl

theorem hubStep_closed (h : Hub) (ev : HubEvent) :
    (hubStep h ev).1.closed = h.closed := by
  cases ev <;> simp only [hubStep] <;> split <;> rfl

theorem mapGet_hubStep (h : Hub) (hopen : h.closed = false) (ev : HubEvent)
    (u : String) :
    mapGet (hubStep h ev).1.sessions u =
      match evSOp u ev with
      | none => mapGet h.sessions u
      | some op => applyOp (mapGet h.sessions u) op := by
  have hcl : h.Closed = false := hopen
  cases ev with
  | register s =>
    simp only [hubStep, hcl, Bool.false_eq_true, if_false, evSOp, registerSession]
    by_cases hu : s.userId = u
    · subst hu
      rw [if_pos rfl]
      simp [mapGet_mapSet_self, applyOp]
    · rw [if_neg hu]
      exact mapGet_mapSet_ne _ _ (fun he => hu he.symm)
  | unregister s =>
    simp only [hubStep, hcl, Bool.false_eq_true, if_false, evSOp, unregisterSession]
    by_cases hu : s.userId = u
    · subst hu
      rw [if_pos rfl]
      rcases hg : mapGet h.sessions s.userId with _ | ss
      · simp [hg, applyOp]
      · simp [mapGet_mapSet_self, applyOp]
    · rw [if_neg hu]
      rcases hg : mapGet h.sessions s.userId with _ | ss
      · rfl
      · exact mapGet_mapSet_ne _ _ (fun he => hu he.symm)
  | broadcast e =>
    simp [hubStep, hcl, evSOp]

theorem mapGet_processEvents :
    ∀ (evs : List HubEvent) (h : Hub), h.closed = false → ∀ u : String,
      mapGet (processEvents h evs).sessions u =
        (opsFor u evs).foldl applyOp (mapGet h.sessions u)
  | [], h, _, u => rfl
  | ev :: r, h, hopen, u => by
    have hstep : processEvents h (ev :: r) = processEvents (hubStep h ev).1 r := rfl
    have hopen' : (hubStep h ev).1.closed = false := (hubStep_closed h ev).trans hopen
    rw [hstep, mapGet_processEvents r _ hopen' u, mapGet_hubStep h hopen ev u]
    show _ = (List.filterMap (evSOp u) (ev :: r)).foldl applyOp _
    rw [List.filterMap_cons]
    cases hev : evSOp u ev <;> simp [opsFor]

theorem registeredIn_iff_slot (m : List (String × List Session)) (s : Session) :
    registeredIn m s ↔ s ∈ slotSessions (mapGet m s.userId) := by
  unfold registeredIn slotSessions
  rcases hg : mapGet m s.userId with _ | ss <;> simp

/-- C5: on an open hub, the register case appends the session to the slot
of its user id (creating the slot when absent), the unregister case
erases exactly that session instance (Go pointer identity) from the slot
of its user id, both cases — and broadcast — are ignored when the hub is
not open, and over any event sequence from a fresh hub the final slot of
user `u` holds exactly the sessions registered for `u` minus those
unregistered (assuming what `HandleWs` guarantees: a session instance is
registered at most once and never after an unregistration of it). -/
theorem hub_registry_fold (evs : List HubEvent) (u : String)
    (hnd : (regsOf (opsFor u evs)).Nodup)
    (hlate : noLateReg (opsFor u evs) = true) :
    (∀ (h : Hub) (s : Session), h.closed = false →
      (hubStep h (.register s)).1.sessions = registerSession h.sessions s ∧
      mapGet (registerSession h.sessions s) s.userId =
        some ((mapGet h.sessions s.userId).getD [] ++ [s])) ∧
    (∀ (h : Hub) (s : Session), h.closed = false →
      (hubStep h (.unregister s)).1.sessions = unregisterSession h.sessions s ∧
      ∀ ss, mapGet h.sessions s.userId = some ss →
        mapGet (unregisterSession h.sessions s) s.userId = some (ss.erase s)) ∧
    (∀ (h : Hub) (ev : HubEvent), h.closed = true → hubStep h ev = (h, [])) ∧
    (∀ s : Session, s.userId = u →
      (registeredIn (processEvents NewHub evs).sessions s ↔
        s ∈ regsOf (opsFor u evs) ∧ s ∉ unregsOf (opsFor u evs))) := by
  refine ⟨?_, ?_, ?_, ?_⟩
  · intro h s hopen
    have hcl : h.Closed = false := hopen
    refine ⟨by simp [hubStep, hcl], ?_⟩
    simp [registerSession, mapGet_mapSet_self]
  · intro h s hopen
    have hcl : h.Closed = false := hopen
    refine ⟨by simp [hubStep, hcl], ?_⟩
    intro ss hss
    simp [unregisterSession, hss, mapGet_mapSet_self]
  · intro h ev hcl
    have : h.Closed = true := hcl
    cases ev <;> simp [hubStep, this]
  · intro s hu
    subst hu
    rw [registeredIn_iff_slot,
      mapGet_processEvents evs NewHub rfl s.userId]
    show s ∈ slotSessions ((opsFor s.userId evs).foldl applyOp (mapGet [] s.userId)) ↔ _
    rw [slotSessions_foldl_applyOp]
    show s ∈ applySOps [] (opsFor s.userId evs) ↔ _
    rw [applySOps_eq_filter (opsFor s.userId evs) [] (by simpa using hnd) hlate]
    simp

/-- Witness for C5, the spec's §8 scenario 7 tail: register
`s1`(user "a"), `s2`(user "a"), `s3`(user "b"), then unregister `s2` —
the final slot of "a" holds `s1` and no longer holds `s2`. -/
theorem hub_registry_fold_witness :
    registeredIn
      (processEvents NewHub
        [.register ⟨1, "a", "app"⟩, .register ⟨2, "a", "app"⟩,
          .register ⟨3, "b", "app"⟩, .unregister ⟨2, "a", "app"⟩]).sessions
      ⟨1, "a", "app"⟩ ∧
    ¬registeredIn
      (processEvents NewHub
        [.register ⟨1, "a", "app"⟩, .register ⟨2, "a", "app"⟩,
          .register ⟨3, "b", "app"⟩, .unregister ⟨2, "a", "app"⟩]).sessions
      ⟨2, "a", "app"⟩ := by
  have h := hub_registry_fold
    [.register ⟨1, "a", "app"⟩, .register ⟨2, "a", "app"⟩,
      .register ⟨3, "b", "app"⟩, .unregister ⟨2, "a", "app"⟩]
    "a" (by decide) (by decide)
  constructor
  · exact (h.2.2.2 ⟨1, "a", "app"⟩ rfl).mpr ⟨by decide, by decide⟩
  · intro hr
    have hm := (h.2.2.2 ⟨2, "a", "app"⟩ rfl).mp hr
    exact absurd hm.2 (by decide)

/-- C9: on a missing key `MustGet` panics (with the
`"Session MustGet:" + key + " fail"` message) and every typed getter
returns its zero value; on a present key `MustGet` returns the value, and
each typed getter returns the stored value exactly when its dynamic type
matches and the zero value otherwise. -/
theorem session_kv_getters (keys : List (String × GoValue)) (k : String) :
    (Session.Get keys k = none →
      Session.MustGet keys k = .error ("Session MustGet:" ++ k ++ " fail") ∧
      Session.GetString keys k = "" ∧
      Session.GetInt keys k = 0 ∧
      Session.GetInt64 keys k = 0) ∧
    (∀ v, Session.Get keys k = some v →
      Session.MustGet keys k = .ok v ∧
      Session.GetString keys k =
        (match v with | .vstring s => s | _ => "") ∧
      Session.GetInt keys k =
        (match v with | .vint n => n | _ => 0) ∧
      Session.GetInt64 keys k =
        (match v with | .vint64 n => n | _ => 0)) := by
  constructor
  · intro h
    refine ⟨?_, ?_, ?_, ?_⟩ <;>
      simp [Session.MustGet, Session.GetString, Session.GetInt,
        Session.GetInt64, h]
  · intro v h
    refine ⟨by simp [Session.MustGet, h], ?_, ?_, ?_⟩ <;>
      cases v <;>
        simp [Session.GetString, Session.GetInt, Session.GetInt64, h]

/-- Witness for C9 at a concrete store: a missing key panics in `MustGet`
and yields zero values; a present string key yields its string, its `int`
getter yields `0` (type mismatch); a present `int` key yields its value. -/
theorem session_kv_getters_witness :
    Session.MustGet [("name", GoValue.vstring "bob"), ("n", GoValue.vint 3)] "x" =
      .error ("Session MustGet:" ++ "x" ++ " fail") ∧
    Session.GetString [("name", GoValue.vstring "bob"), ("n", GoValue.vint 3)] "x" = "" ∧
    Session.GetString [("name", GoValue.vstring "bob"), ("n", GoValue.vint 3)] "name" = "bob" ∧
    Session.GetInt [("name", GoValue.vstring "bob"), ("n", GoValue.vint 3)] "name" = 0 ∧
    Session.GetInt [("name", GoValue.vstring "bob"), ("n", GoValue.vint 3)] "n" = 3 := by
  have h1 := (session_kv_getters
    [("name", GoValue.vstring "bob"), ("n", GoValue.vint 3)] "x").1 rfl
  have h2 := (session_kv_getters
    [("name", GoValue.vstring "bob"), ("n", GoValue.vint 3)] "name").2
    (GoValue.vstring "bob") rfl
  have h3 := (session_kv_getters
    [("name", GoValue.vstring "bob"), ("n", GoValue.vint 3)] "n").2
    (GoValue.vint 3) rfl
  exact ⟨h1.1, h1.2.1, h2.2.1, h2.2.2.1, h3.2.2.1⟩

/-- C6: `PushMessage` on an appId whose hub is closed fails with the
"hub has closed" error and submits no envelope (and even a broadcast
reaching a closed hub's loop forwards to no session); on an open hub it
builds the single text envelope from the given user ids, payload and
filter, submits it, and succeeds. -/
theorem pushMessage_closed_fails (b : BoosterState) (appId : String)
    (userIds : List String) (msg : List Nat) (fn : Option (Session → Bool))
    (h : Hub) (hget : mapGet b.hubs appId = some h) :
    (h.closed = true →
      PushMessage b appId userIds msg fn =
        (b, .error ("appId[" ++ appId ++ "] hub has closed")) ∧
      ∀ e, hubStep h (.broadcast e) = (h, [])) ∧
    (h.closed = false →
      PushMessage b appId userIds msg fn =
        (b, .ok { t := TextMessage, msg := msg, userIds := userIds,
                  filter := fn })) := by
  constructor
  · intro hcl
    have hc : h.Closed = true := hcl
    constructor
    · simp [PushMessage, getHub, hget, hc]
    · intro e
      simp [hubStep, hc]
  · intro hop
    have hc : h.Closed = false := hop
    simp [PushMessage, getHub, hget, hc]

/-- Witness for C6: a broker with a closed hub under "app1" and a fresh
hub under "app2" — the push to "app1" fails with the "hub has closed"
error, the push to "app2" succeeds with the built envelope. -/
theorem pushMessage_closed_fails_witness :
    PushMessage { hubs := [("app1", { closed := true, sessions := [] }),
                          ("app2", NewHub)] } "app1" ["u"] [1] none =
      ({ hubs := [("app1", { closed := true, sessions := [] }),
                  ("app2", NewHub)] },
        .error ("appId[" ++ "app1" ++ "] hub has closed")) ∧
    PushMessage { hubs := [("app1", { closed := true, sessions := [] }),
                          ("app2", NewHub)] } "app2" ["u"] [1] none =
      ({ hubs := [("app1", { closed := true, sessions := [] }),
                  ("app2", NewHub)] },
        .ok { t := TextMessage, msg := [1], userIds := ["u"],
              filter := none }) := by
  constructor
  · exact ((pushMessage_closed_fails
      { hubs := [("app1", { closed := true, sessions := [] }), ("app2", NewHub)] }
      "app1" ["u"] [1] none { closed := true, sessions := [] } rfl).1 rfl).1
  · exact (pushMessage_closed_fails
      { hubs := [("app1", { closed := true, sessions := [] }), ("app2", NewHub)] }
      "app2" ["u"] [1] none NewHub rfl).2 rfl

theorem broadcastTargets_empty_registry (e : envelope) :
    broadcastTargets [] e = [] := by
  unfold broadcastTargets
  split
  · induction e.userIds with
    | nil => rfl
    | cons u r ih => simp [mapGet, ih]
  · rfl

/-- C10: `PushMessage` with an appId absent from the broker's hub map
does not fail: `getHub` creates a fresh open hub, files it under the
appId and starts it; the push succeeds with the built envelope; and a
broadcast of that envelope on the new hub's empty registry is forwarded
to no session. -/
theorem pushMessage_unknown_appId (b : BoosterState) (appId : String)
    (userIds : List String) (msg : List Nat) (fn : Option (Session → Bool))
    (hget : mapGet b.hubs appId = none) :
    (getHub b appId).2 = NewHub ∧
    NewHub.closed = false ∧
    mapGet (getHub b appId).1.hubs appId = some NewHub ∧
    PushMessage b appId userIds msg fn =
      ((getHub b appId).1,
        .ok { t := TextMessage, msg := msg, userIds := userIds,
              filter := fn }) ∧
    broadcastTargets NewHub.sessions
      { t := TextMessage, msg := msg, userIds := userIds, filter := fn } =
      [] := by
  refine ⟨?_, rfl, ?_, ?_, broadcastTargets_empty_registry _⟩
  · simp [getHub, hget]
  · simp [getHub, hget, mapGet_mapSet_self]
  · simp [PushMessage, getHub, hget]
    rfl

/-- Witness for C10: pushing to an empty broker creates the hub under
"app", succeeds, and the envelope reaches no session. -/
theorem pushMessage_unknown_appId_witness :
    mapGet (getHub { hubs := [] } "app").1.hubs "app" = some NewHub ∧
    PushMessage { hubs := [] } "app" ["u"] [1] none =
      ((getHub { hubs := [] } "app").1,
        .ok { t := TextMessage, msg := [1], userIds := ["u"],
              filter := none }) ∧
    broadcastTargets NewHub.sessions
      { t := TextMessage, msg := [1], userIds := ["u"], filter := none } =
      [] := by
  have h := pushMessage_unknown_appId { hubs := [] } "app" ["u"] [1] none rfl
  exact ⟨h.2.2.1, h.2.2.2.1, h.2.2.2.2⟩

end Booster
